import Mathlib

/-
Verification of the RustMC protocol engine.

Shallow embedding of the packet code (rustmc-packets), the registry
(client/converter.rs), the server session list (rustmc-server/src/lib.rs),
the connection write path (client/connection.rs, client/mod.rs) and the
generated HandshakePacket codec (macros.rs, server/handshake.rs).

Bytes are modelled as Nat values below 256; byte buffers as List Nat.
Rust mutation of a BytesMut argument is modelled by returning the
remaining buffer alongside the result.  A Rust panic is modelled by the
RustOutcome type.
-/

namespace RustMC

/-- Loop body of PacketFormatter::read_varint (rustmc-packets/src/lib.rs,
lines 90-112).  The source checks `count == 5` first, then buffer
exhaustion, pops one byte, ors in `(byte & 0xF7) << (7 * count)` (note the
0xF7 mask taken verbatim from the source), and stops when the top bit is
clear.  The returned list is the state of the BytesMut after the call
(bytes read by `get_u8` are consumed even on the None paths). -/
def readVarintLoop : List Nat → Nat → Nat → Option (Nat × Nat) × List Nat
  | buffer, result, count =>
    if count = 5 then (none, buffer)
    else
      match buffer with
      | [] => (none, [])
      | byte :: rest =>
        let result2 := result ||| ((byte &&& 247) <<< (7 * count))
        if byte &&& 128 = 0 then (some (result2, count + 1), rest)
        else readVarintLoop rest result2 (count + 1)

/-- PacketFormatter::read_varint: value, bytes consumed, and the buffer
left behind in the mutated BytesMut. -/
def read_varint (buffer : List Nat) : Option (Nat × Nat) × List Nat :=
  readVarintLoop buffer 0 0

/-- Decoder written from the claim's words (low 7 bits of each byte,
mask 0x7F, shifted by 7 * index, stop at the first byte with the top bit
clear), used only to compare the source's 0xF7-mask decoder against the
specified algorithm. -/
def specVarintLoop : List Nat → Nat → Nat → Option (Nat × Nat)
  | [], _, _ => none
  | byte :: rest, result, count =>
    let result2 := result ||| ((byte &&& 127) <<< (7 * count))
    if byte &&& 128 = 0 then some (result2, count + 1)
    else specVarintLoop rest result2 (count + 1)

/-- VarInt decode as the claim states it. -/
def specVarintDecode (buffer : List Nat) : Option (Nat × Nat) :=
  specVarintLoop buffer 0 0

/-- VarInt encode from the spec (7-bit groups, low-order first,
continuation bit on every group but the last); fuel 5 covers the 1-5
byte encodings the protocol allows.  Used only to state what the spec's
frame looks like. -/
def encodeVarintFuel : Nat → Nat → List Nat
  | 0, _ => []
  | fuel + 1, n =>
    if n < 128 then [n]
    else (n % 128 + 128) :: encodeVarintFuel fuel (n / 128)

/-- VarInt encode from the spec. -/
def encodeVarint (n : Nat) : List Nat :=
  encodeVarintFuel 5 n

/-- PacketFormatter::format_data (rustmc-packets/src/lib.rs lines 61-73,
identical copy in src/protocol/mod.rs lines 60-72).  The source builds
`formatted_data` = length byte (`(data.len() + 1) as u8`) ++ id ++ data,
but its final expression - the value returned - is `data`. -/
def format_data (id : Nat) (data : List Nat) : List Nat :=
  let formatted_data := ((data.length + 1) % 256) :: id :: data
  data

/-- Packet::into_protocol_format delegates to PacketFormatter::format_data. -/
def into_protocol_format (id : Nat) (data : List Nat) : List Nat :=
  format_data id data

/-- The frame the spec prescribes: VarInt(len(payload) + 1) ++ id ++ payload. -/
def frame_spec (id : Nat) (payload : List Nat) : List Nat :=
  encodeVarint (payload.length + 1) ++ id :: payload

/-- One Rust call outcome: normal return or panic. -/
inductive RustOutcome (α : Type) where
  | ok (value : α)
  | panicked
  deriving DecidableEq

/-- Option::unwrap: panics on None. -/
def unwrapOpt {α : Type} : Option α → RustOutcome α
  | some a => .ok a
  | none => .panicked

/-- PacketRetriever::process_packet (rustmc-packets/src/lib.rs lines
178-183): `packet_data.first().map(|&byte| byte).unwrap()`; the unwrap
panics when the body is empty, otherwise the first byte is the packet id. -/
def process_packet (packet_data : List Nat) : RustOutcome Nat :=
  unwrapOpt (packet_data.head?.map (fun byte => byte))

/-- Loop of PacketRetriever::retrieve_packets (rustmc-packets/src/lib.rs
lines 142-176) over a list of socket-read chunks.  Per iteration: a
zero-byte read breaks out; otherwise the chunk is appended to the
buffer, read_varint is tried (consuming bytes from the buffer), and on a
decoded length the code either splits off one body when enough bytes are
buffered or breaks out of the whole loop when not; when read_varint
returns None the loop just reads again.  Emitted frame bodies
(id byte ++ payload) are collected. -/
def retrieveLoop : List (List Nat) → List Nat → List (List Nat)
  | [], _ => []
  | chunk :: rest, buffer =>
    if chunk.length = 0 then []
    else
      match read_varint (buffer ++ chunk) with
      | (some lenc, remaining) =>
        if lenc.1 ≤ remaining.length then
          remaining.take lenc.1 :: retrieveLoop rest (remaining.drop lenc.1)
        else []
      | (none, remaining) => retrieveLoop rest remaining

/-- PacketRetriever::retrieve_packets starting from an empty buffer. -/
def retrieve_packets (chunks : List (List Nat)) : List (List Nat) :=
  retrieveLoop chunks []

/-- HandshakePacket (rustmc-packets/src/server/handshake.rs): fields
protocol_version (u16), server_address (String, modelled as its UTF-8
byte list), server_port (u16), next_state (u8). -/
structure HandshakePacket where
  protocol_version : Nat
  server_address : List Nat
  server_port : Nat
  next_state : Nat
  deriving DecidableEq

/-- Little-endian fixed-width u16 as bincode emits it. -/
def u16LE (n : Nat) : List Nat :=
  [n % 256, n / 256 % 256]

/-- Little-endian fixed-width u64 as bincode emits it (string length prefix). -/
def u64LE (n : Nat) : List Nat :=
  [n % 256, n / 256 % 256, n / 65536 % 256, n / 16777216 % 256,
   n / 4294967296 % 256, n / 1099511627776 % 256,
   n / 281474976710656 % 256, n / 72057594037927936 % 256]

/-- Serialization generated by the packet macro (rustmc-packets/src/macros.rs
lines 20-22): bincode with its default fixed-int little-endian layout -
u16 protocol_version, u64 byte-length prefix then the string bytes,
u16 server_port, u8 next_state. -/
def serializeHandshake (p : HandshakePacket) : List Nat :=
  u16LE p.protocol_version ++ u64LE p.server_address.length ++
    p.server_address ++ u16LE p.server_port ++ [p.next_state % 256]

/-- Read one byte. -/
def readU8 : List Nat → Option (Nat × List Nat)
  | b :: rest => some (b, rest)
  | [] => none

/-- Read a little-endian u16. -/
def readU16LE : List Nat → Option (Nat × List Nat)
  | b0 :: b1 :: rest => some (b0 + 256 * b1, rest)
  | _ => none

/-- Read a little-endian u64 (Horner form). -/
def readU64LE : List Nat → Option (Nat × List Nat)
  | b0 :: b1 :: b2 :: b3 :: b4 :: b5 :: b6 :: b7 :: rest =>
    some (b0 + 256 * (b1 + 256 * (b2 + 256 * (b3 + 256 * (b4 + 256 *
      (b5 + 256 * (b6 + 256 * b7)))))), rest)
  | _ => none

/-- Read an exact number of raw bytes. -/
def readBytes (n : Nat) (l : List Nat) : Option (List Nat × List Nat) :=
  if n ≤ l.length then some (l.take n, l.drop n) else none

/-- Deserialization generated by the packet macro (macros.rs lines 24-26):
bincode decodes the fields in declaration order and yields None on a
buffer that is too short. -/
def deserializeHandshake (data : List Nat) : Option HandshakePacket :=
  (readU16LE data).bind fun pv =>
  (readU64LE pv.2).bind fun len =>
  (readBytes len.1 len.2).bind fun addr =>
  (readU16LE addr.2).bind fun port =>
  (readU8 port.2).bind fun ns =>
  some ⟨pv.1, addr.1, port.1, ns.1⟩

/-- The packets stored behind Box<dyn Packet> in the registry; the shipped
repository registers only HandshakePacket. -/
inductive BoxedPacket where
  | handshake (p : HandshakePacket)
  deriving DecidableEq

/-- Packet::id of the stored packet: the packet macro fixes the handshake
id at 0x00 (server/handshake.rs line 3). -/
def BoxedPacket.id : BoxedPacket → Nat
  | .handshake _ => 0

/-- The CLIENT_PACKETS HashMap<u8, Box<dyn Packet>>
(rustmc-packets/src/client/converter.rs line 12), as a partial map. -/
def PacketVec : Type := Nat → Option BoxedPacket

/-- The registry before any registration. -/
def emptyPackets : PacketVec := fun _ => none

/-- PacketByteConverter::register_packet (converter.rs lines 50-56): a
plain HashMap insert keyed by packet.id(); it has no failure path. -/
def register_packet (packets : PacketVec) (packet : BoxedPacket) : PacketVec :=
  fun k => if k = BoxedPacket.id packet then some packet else packets k

/-- PacketByteConverter::get_packet (converter.rs lines 71-75): looks the
id up in CLIENT_PACKETS and clones the stored packet; the frame payload
plays no part. -/
def get_packet (packets : PacketVec) (packet_id : Nat) : Option BoxedPacket :=
  packets packet_id

/-- UUID (rustmc-server/src/client/uuid.rs): 16 raw bytes. -/
structure UUID where
  data : List Nat
  deriving DecidableEq

/-- Player (rustmc-server/src/client/mod.rs lines 14-23); the TcpStream
behind the Arc Mutex is modelled as an abstract stream handle. -/
structure Player where
  connection : Nat
  username : String
  uuid : UUID
  deriving DecidableEq

/-- The all-zero uuid `UUID { data: [0; 16] }` the accept loop hard-codes. -/
def zeroUUID : UUID := ⟨List.replicate 16 0⟩

/-- The Player value MinecraftServer::start builds for an accepted stream
(rustmc-server/src/lib.rs lines 88-92): username "wowie", uuid zero. -/
def newPlayer (stream : Nat) : Player :=
  ⟨stream, "wowie", zeroUUID⟩

/-- The players collection of MinecraftServer (rustmc-server/src/lib.rs
line 24). -/
structure ServerState where
  players : List Player
  deriving DecidableEq

/-- One accepted connection: MinecraftServer::start pushes the new Player
unconditionally (lib.rs line 94). -/
def acceptConnection (s : ServerState) (stream : Nat) : ServerState :=
  ⟨s.players ++ [newPlayer stream]⟩

/-- Server states reachable by the accept loop from the initial empty
players list (MinecraftServer::new, lib.rs lines 51-57). -/
inductive Reachable : ServerState → Prop
  | start : Reachable ⟨[]⟩
  | accept (s : ServerState) (stream : Nat) :
      Reachable s → Reachable (acceptConnection s stream)

/-- Number of live sessions holding a given uuid. -/
def uuidCount (s : ServerState) (u : UUID) : Nat :=
  (s.players.filter (fun p => p.uuid == u)).length

/-- Player::disconnect (rustmc-server/src/client/mod.rs lines 98-100) is
`unimplemented!()`: every call panics. -/
def playerDisconnect (p : Player) (message : String) : RustOutcome Unit :=
  .panicked

/-- Progress of one send_packet task: before lock acquisition, writing
with the given bytes left, or finished. -/
inductive SendPhase where
  | waiting
  | writing (rest : List Nat)
  | done
  deriving DecidableEq

/-- Connection write path shared by two concurrent send_packet calls
(ClientConnection::send_packet, connection.rs lines 45-59, and
Player::send_packet, client/mod.rs lines 127-141): the tokio Mutex around
the TcpStream (lock), the bytes written to the stream so far (out), and
the two tasks. -/
structure WireState where
  lock : Option Bool
  out : List Nat
  t0 : SendPhase
  t1 : SendPhase
  deriving DecidableEq

/-- Interleaving semantics of two send_packet calls writing frames d0 and
d1: `connection.lock().await` acquires the Mutex only when free, the
bytes of write_all go out one at a time while the guard is held, and the
guard is released when the frame is fully written. -/
inductive SendStep (d0 d1 : List Nat) : WireState → WireState → Prop
  | acquire0 (out : List Nat) (t1 : SendPhase) :
      SendStep d0 d1 ⟨none, out, .waiting, t1⟩ ⟨some false, out, .writing d0, t1⟩
  | write0 (out : List Nat) (b : Nat) (r : List Nat) (t1 : SendPhase) :
      SendStep d0 d1 ⟨some false, out, .writing (b :: r), t1⟩
        ⟨some false, out ++ [b], .writing r, t1⟩
  | release0 (out : List Nat) (t1 : SendPhase) :
      SendStep d0 d1 ⟨some false, out, .writing [], t1⟩ ⟨none, out, .done, t1⟩
  | acquire1 (out : List Nat) (t0 : SendPhase) :
      SendStep d0 d1 ⟨none, out, t0, .waiting⟩ ⟨some true, out, t0, .writing d1⟩
  | write1 (out : List Nat) (b : Nat) (r : List Nat) (t0 : SendPhase) :
      SendStep d0 d1 ⟨some true, out, t0, .writing (b :: r)⟩
        ⟨some true, out ++ [b], t0, .writing r⟩
  | release1 (out : List Nat) (t0 : SendPhase) :
      SendStep d0 d1 ⟨some true, out, t0, .writing []⟩ ⟨none, out, t0, .done⟩

/-- Both tasks pending, nothing written. -/
def initWire : WireState := ⟨none, [], .waiting, .waiting⟩

/-- Inductive invariant of the two-sender write path: the lock tracks the
single writer, the output is the completed frames in acquisition order
followed by the current writer's prefix, and two tasks are never writing
at once. -/
def SendInv (d0 d1 : List Nat) (s : WireState) : Prop :=
  match s.t0, s.t1 with
  | .waiting, .waiting => s.lock = none ∧ s.out = []
  | .writing r, .waiting => s.lock = some false ∧ ∃ w, d0 = w ++ r ∧ s.out = w
  | .done, .waiting => s.lock = none ∧ s.out = d0
  | .waiting, .writing r => s.lock = some true ∧ ∃ w, d1 = w ++ r ∧ s.out = w
  | .waiting, .done => s.lock = none ∧ s.out = d1
  | .writing _, .writing _ => False
  | .writing r, .done => s.lock = some false ∧ ∃ w, d0 = w ++ r ∧ s.out = d1 ++ w
  | .done, .writing r => s.lock = some true ∧ ∃ w, d1 = w ++ r ∧ s.out = d0 ++ w
  | .done, .done => s.lock = none ∧ (s.out = d0 ++ d1 ∨ s.out = d1 ++ d0)

/-- Decoding a bincode u16 undoes encoding it. -/
theorem readU16LE_of_u16LE (n : Nat) (rest : List Nat) (h : n < 65536) :
    readU16LE (u16LE n ++ rest) = some (n, rest) := by
  simp only [u16LE, List.cons_append, List.nil_append, readU16LE,
    Option.some.injEq, Prod.mk.injEq, and_true]
  omega

/-- Decoding a bincode u64 undoes encoding it. -/
theorem readU64LE_of_u64LE (n : Nat) (rest : List Nat)
    (h : n < 18446744073709551616) :
    readU64LE (u64LE n ++ rest) = some (n, rest) := by
  simp only [u64LE, List.cons_append, List.nil_append, readU64LE,
    Option.some.injEq, Prod.mk.injEq, and_true]
  omega

/-- Reading back exactly the bytes that were appended. -/
theorem readBytes_exact (l rest : List Nat) :
    readBytes l.length (l ++ rest) = some (l, rest) := by
  simp [readBytes, List.take_left, List.drop_left]

/-- One SendStep preserves the two-sender invariant. -/
theorem sendInv_step (d0 d1 : List Nat) (s s2 : WireState)
    (hs : SendStep d0 d1 s s2) (hi : SendInv d0 d1 s) : SendInv d0 d1 s2 := by
  cases hs with
  | acquire0 out t1 =>
    cases t1 with
    | waiting =>
      obtain ⟨-, hout⟩ := hi
      exact ⟨rfl, [], (List.nil_append d0).symm, hout⟩
    | writing r => exact absurd hi.1 (by simp)
    | done =>
      obtain ⟨-, hout⟩ := hi
      exact ⟨rfl, [], (List.nil_append d0).symm, by rw [hout, List.append_nil]⟩
  | write0 out b r t1 =>
    cases t1 with
    | waiting =>
      obtain ⟨-, w, hw, hout⟩ := hi
      have h2 : out = w := hout
      exact ⟨rfl, w ++ [b], by rw [hw]; simp, by show out ++ [b] = w ++ [b]; rw [h2]⟩
    | writing r2 => exact hi.elim
    | done =>
      obtain ⟨-, w, hw, hout⟩ := hi
      have h2 : out = d1 ++ w := hout
      exact ⟨rfl, w ++ [b], by rw [hw]; simp,
        by show out ++ [b] = d1 ++ (w ++ [b]); rw [h2, List.append_assoc]⟩
  | release0 out t1 =>
    cases t1 with
    | waiting =>
      obtain ⟨-, w, hw, hout⟩ := hi
      have hwd : w = d0 := by simpa using hw.symm
      exact ⟨rfl, by rw [hout, hwd]⟩
    | writing r2 => exact hi.elim
    | done =>
      obtain ⟨-, w, hw, hout⟩ := hi
      have hwd : w = d0 := by simpa using hw.symm
      exact ⟨rfl, Or.inr (by rw [hout, hwd])⟩
  | acquire1 out t0 =>
    cases t0 with
    | waiting =>
      obtain ⟨-, hout⟩ := hi
      exact ⟨rfl, [], (List.nil_append d1).symm, hout⟩
    | writing r => exact absurd hi.1 (by simp)
    | done =>
      obtain ⟨-, hout⟩ := hi
      exact ⟨rfl, [], (List.nil_append d1).symm, by rw [hout, List.append_nil]⟩
  | write1 out b r t0 =>
    cases t0 with
    | waiting =>
      obtain ⟨-, w, hw, hout⟩ := hi
      have h2 : out = w := hout
      exact ⟨rfl, w ++ [b], by rw [hw]; simp, by show out ++ [b] = w ++ [b]; rw [h2]⟩
    | writing r2 => exact hi.elim
    | done =>
      obtain ⟨-, w, hw, hout⟩ := hi
      have h2 : out = d0 ++ w := hout
      exact ⟨rfl, w ++ [b], by rw [hw]; simp,
        by show out ++ [b] = d0 ++ (w ++ [b]); rw [h2, List.append_assoc]⟩
  | release1 out t0 =>
    cases t0 with
    | waiting =>
      obtain ⟨-, w, hw, hout⟩ := hi
      have hwd : w = d1 := by simpa using hw.symm
      exact ⟨rfl, by rw [hout, hwd]⟩
    | writing r2 => exact hi.elim
    | done =>
      obtain ⟨-, w, hw, hout⟩ := hi
      have hwd : w = d1 := by simpa using hw.symm
      exact ⟨rfl, Or.inl (by rw [hout, hwd])⟩

/-- The invariant holds in every state the two senders can reach. -/
theorem sendInv_reachable (d0 d1 : List Nat) (s : WireState)
    (h : Relation.ReflTransGen (SendStep d0 d1) initWire s) :
    SendInv d0 d1 s := by
  induction h with
  | refl => exact ⟨rfl, rfl⟩
  | tail hab hstep ih => exact sendInv_step d0 d1 _ _ hstep ih

/-- C1: read_varint is claimed to accumulate the low 7 bits of each byte
(byte AND 0x7F) shifted by 7 * index.  The source masks with 0xF7
instead, so on the well-formed one-byte encoding 0x08 it returns value 0
where the specified algorithm returns 8; the byte count is 1 in both. -/
theorem read_varint_wrong_mask :
    read_varint [8] = (some (0, 1), []) ∧ specVarintDecode [8] = some (8, 1) ∧
      (0 : Nat) ≠ 8 := by
  decide

/-- C2: format_data is claimed to return VarInt(len(payload) + 1) ++ id ++
payload; the source builds that frame in formatted_data but returns the
bare payload, shown here for id 0 and payload [42]. -/
theorem format_data_returns_bare_payload :
    format_data 0 [42] = [42] ∧ frame_spec 0 [42] = [2, 0, 42] ∧
      format_data 0 [42] ≠ frame_spec 0 [42] := by
  decide

/-- C3 counterexample: the frame 02 05 07 delivered whole yields its one
body, but delivered one byte at a time yields nothing, because a decoded
length without a fully buffered body makes retrieve_packets break out of
its read loop; the result depends on the chunking. -/
theorem retrieve_packets_chunking_dependent :
    retrieve_packets [[2, 5, 7]] = [[5, 7]] ∧
      retrieve_packets [[2], [5], [7]] = [] ∧
      retrieve_packets [[2], [5], [7]] ≠ retrieve_packets [[2, 5, 7]] := by
  decide

/-- C3 amended: only single-chunk delivery is chunking-safe: a complete
frame whose length byte has the top bit clear and is unchanged by the
source's 0xF7 mask, delivered in one chunk, yields exactly one emitted
frame holding the original id byte and payload; split deliveries can
yield none. -/
theorem retrieve_packets_single_chunk (body : List Nat) (n : Nat)
    (hlen : body.length = n) (h128 : n &&& 128 = 0) (h247 : n &&& 247 = n) :
    retrieve_packets [n :: body] = [body] := by
  have hv : read_varint ([] ++ (n :: body)) = (some (n, 1), body) := by
    simp [read_varint, readVarintLoop, h247, h128]
  simp only [retrieve_packets, retrieveLoop, List.length_cons, List.nil_append] at *
  rw [hv]
  simp [← hlen]

/-- Witness for the amended C3 on the concrete frame 01 09. -/
theorem retrieve_packets_single_chunk_witness :
    retrieve_packets [1 :: [9]] = [[9]] :=
  retrieve_packets_single_chunk [9] 1 (by decide) (by decide) (by decide)

/-- C4 counterexample: decoding an exhausted buffer and decoding five
continuation bytes are claimed to be distinguishable outcomes; read_varint
returns the very same value, None with an emptied buffer, in both cases. -/
theorem read_varint_confuses_incomplete_and_invalid :
    read_varint [] = read_varint [128, 128, 128, 128, 128] ∧
      (read_varint []).1 = none := by
  decide

/-- C4 amended: read_varint folds both conditions into one outcome: the
empty buffer and five bytes with the continuation bit set both return
None (with the buffer consumed), so a caller cannot tell need-more-bytes
from malformed. -/
theorem read_varint_none_on_both :
    read_varint [] = (none, []) ∧
      read_varint [128, 128, 128, 128, 128] = (none, []) := by
  decide

/-- C5 counterexample: resolving an id is get_packet, which returns a
clone of the packet registered under that id and never touches the
payload: with packet q registered and the serialized bytes of a
different packet p in hand, the lookup still yields q, not p. -/
theorem get_packet_ignores_payload :
    get_packet (register_packet emptyPackets (BoxedPacket.handshake ⟨1, [], 0, 0⟩))
        (BoxedPacket.id (BoxedPacket.handshake ⟨2, [], 0, 0⟩)) =
      some (BoxedPacket.handshake ⟨1, [], 0, 0⟩) ∧
      BoxedPacket.handshake ⟨1, [], 0, 0⟩ ≠ BoxedPacket.handshake ⟨2, [], 0, 0⟩ ∧
      serializeHandshake ⟨2, [], 0, 0⟩ ≠ serializeHandshake ⟨1, [], 0, 0⟩ := by
  decide

/-- C5 amended: the macro-generated codec itself round-trips: for every
HandshakePacket with in-range fields, deserialize (serialize p) = some p;
the registry lookup, however, ignores the payload and returns the stored
instance. -/
theorem handshake_serialize_roundtrip (p : HandshakePacket)
    (h1 : p.protocol_version < 65536) (h2 : p.server_port < 65536)
    (h3 : p.next_state < 256)
    (h4 : p.server_address.length < 18446744073709551616) :
    deserializeHandshake (serializeHandshake p) = some p := by
  obtain ⟨pv, addr, port, ns⟩ := p
  simp only [serializeHandshake, deserializeHandshake, List.append_assoc] at *
  rw [readU16LE_of_u16LE _ _ h1]
  simp only [Option.some_bind]
  rw [readU64LE_of_u64LE _ _ h4]
  simp only [Option.some_bind]
  rw [readBytes_exact]
  simp only [Option.some_bind]
  rw [readU16LE_of_u16LE _ _ h2]
  simp only [Option.some_bind, readU8, Option.some_bind]
  simp [Nat.mod_eq_of_lt h3]

/-- Witness for the amended C5: the spec's example handshake values
round-trip through the generated codec. -/
theorem handshake_serialize_roundtrip_witness :
    ((764 : Nat) < 65536 ∧ (25565 : Nat) < 65536 ∧ (2 : Nat) < 256 ∧
      (HandshakePacket.mk 764 [108, 111, 99, 97, 108, 104, 111, 115, 116] 25565
        2).server_address.length < 18446744073709551616) ∧
    deserializeHandshake (serializeHandshake
        ⟨764, [108, 111, 99, 97, 108, 104, 111, 115, 116], 25565, 2⟩) =
      some ⟨764, [108, 111, 99, 97, 108, 104, 111, 115, 116], 25565, 2⟩ :=
  ⟨⟨by decide, by decide, by decide, by decide⟩,
    handshake_serialize_roundtrip _ (by decide) (by decide) (by decide) (by decide)⟩

/-- C6 counterexample: registering a second packet under the already
registered id 0 does not fail with DuplicateID - register_packet has no
failure path at all - and the prior distinct registration is replaced. -/
theorem register_packet_silently_overwrites :
    get_packet (register_packet
        (register_packet emptyPackets (BoxedPacket.handshake ⟨1, [], 0, 0⟩))
        (BoxedPacket.handshake ⟨2, [], 0, 0⟩)) 0 =
      some (BoxedPacket.handshake ⟨2, [], 0, 0⟩) ∧
      BoxedPacket.handshake ⟨1, [], 0, 0⟩ ≠ BoxedPacket.handshake ⟨2, [], 0, 0⟩ := by
  decide

/-- C6 amended: register_packet is a plain map insert: a later
registration under the same id silently replaces the earlier one, and the
lookup afterwards returns the later packet. -/
theorem register_packet_last_wins (m : PacketVec) (p q : BoxedPacket)
    (h : BoxedPacket.id p = BoxedPacket.id q) :
    get_packet (register_packet (register_packet m p) q) (BoxedPacket.id p) =
      some q := by
  simp [get_packet, register_packet, h]

/-- Witness for the amended C6 with two concrete handshake registrations. -/
theorem register_packet_last_wins_witness :
    get_packet (register_packet
        (register_packet emptyPackets (BoxedPacket.handshake ⟨1, [], 0, 0⟩))
        (BoxedPacket.handshake ⟨2, [], 0, 0⟩))
      (BoxedPacket.id (BoxedPacket.handshake ⟨1, [], 0, 0⟩)) =
      some (BoxedPacket.handshake ⟨2, [], 0, 0⟩) :=
  register_packet_last_wins emptyPackets _ _ rfl

/-- C7 counterexample: after two accepted connections the server state is
reachable and holds two live sessions with the same unique id (the accept
loop hard-codes the all-zero uuid and pushes unconditionally), so the
at-most-one-session-per-id invariant fails. -/
theorem duplicate_uuid_state_reachable :
    Reachable (acceptConnection (acceptConnection ⟨[]⟩ 0) 1) ∧
      uuidCount (acceptConnection (acceptConnection ⟨[]⟩ 0) 1) zeroUUID = 2 := by
  refine ⟨Reachable.accept _ 1 (Reachable.accept _ 0 Reachable.start), ?_⟩
  decide

/-- C7 amended: inserting a session whose unique id is already present is
neither rejected nor does it evict the prior session: the accept loop
keeps every existing player and appends the new one. -/
theorem accept_appends_duplicate (s : ServerState) (stream : Nat) (p : Player)
    (h : p ∈ s.players) :
    p ∈ (acceptConnection s stream).players ∧
      newPlayer stream ∈ (acceptConnection s stream).players := by
  constructor
  · simpa [acceptConnection] using Or.inl h
  · simp [acceptConnection]

/-- Witness for the amended C7: the resident duplicate-id player survives
a second accept. -/
theorem accept_appends_duplicate_witness :
    newPlayer 0 ∈ (acceptConnection ⟨[newPlayer 0]⟩ 1).players ∧
      newPlayer 1 ∈ (acceptConnection ⟨[newPlayer 0]⟩ 1).players :=
  accept_appends_duplicate ⟨[newPlayer 0]⟩ 1 (newPlayer 0) (by decide)

/-- C8 counterexample: the first disconnect() on a player already panics
(the body is unimplemented!), far from succeeding without panicking or
yielding a Closed condition. -/
theorem player_disconnect_panics :
    playerDisconnect (newPlayer 0) ("bye") = RustOutcome.panicked ∧
      (RustOutcome.panicked : RustOutcome Unit) ≠ RustOutcome.ok () := by
  decide

/-- C8 amended: Player::disconnect panics on every call, first or
repeated; no shutdown happens and no distinct Closed error exists. -/
theorem player_disconnect_always_panics (p : Player) (msg : String) :
    playerDisconnect p msg = RustOutcome.panicked :=
  rfl

/-- C9: two concurrent send_packet calls on one connection never
interleave the bytes of their frames: each call holds the connection's
tokio Mutex for the whole write_all, so any reachable state in which both
sends have finished carries the two frames contiguously, in one order or
the other. -/
theorem send_packet_no_interleaving (d0 d1 : List Nat) (s : WireState)
    (h : Relation.ReflTransGen (SendStep d0 d1) initWire s)
    (h0 : s.t0 = SendPhase.done) (h1 : s.t1 = SendPhase.done) :
    s.out = d0 ++ d1 ∨ s.out = d1 ++ d0 := by
  have hi := sendInv_reachable d0 d1 s h
  obtain ⟨lock, out, t0, t1⟩ := s
  dsimp only at h0 h1
  subst h0
  subst h1
  exact hi.2

/-- Witness for C9: a concrete schedule writing frame [1] then frame [2]. -/
theorem send_packet_no_interleaving_witness :
    (⟨none, [1, 2], SendPhase.done, SendPhase.done⟩ : WireState).out = [1] ++ [2] ∨
      (⟨none, [1, 2], SendPhase.done, SendPhase.done⟩ : WireState).out = [2] ++ [1] :=
  send_packet_no_interleaving [1] [2] ⟨none, [1, 2], .done, .done⟩
    (Relation.ReflTransGen.head (SendStep.acquire0 [] .waiting)
      (Relation.ReflTransGen.head (SendStep.write0 [] 1 [] .waiting)
        (Relation.ReflTransGen.head (SendStep.release0 [1] .waiting)
          (Relation.ReflTransGen.head (SendStep.acquire1 [1] .done)
            (Relation.ReflTransGen.head (SendStep.write1 [1] 2 [] .done)
              (Relation.ReflTransGen.head (SendStep.release1 [1, 2] .done)
                Relation.ReflTransGen.refl)))))) rfl rfl

/-- C10: process_packet panics on an empty frame body (the unwrap of the
first byte fails) and returns the first byte as the packet id on every
non-empty body. -/
theorem process_packet_unwrap :
    process_packet [] = RustOutcome.panicked ∧
      ∀ (b : Nat) (rest : List Nat),
        process_packet (b :: rest) = RustOutcome.ok b :=
  ⟨rfl, fun _ _ => rfl⟩

end RustMC
